import Mathlib

/-!
Verification of the file-explorer core (numeric normalization, format
ingestion, table registry, engine session, query facade) against its
natural-language specification.  The definitions below are shallow
embeddings of the TypeScript source in `src/lib/duckdb.ts`,
`src/context/DuckDBContext.tsx` and `src/components/FileSelector.tsx`;
host (JavaScript / engine) primitives the source calls are modelled
explicitly and are marked as such.
-/

set_option maxHeartbeats 1000000

/-! ## Host model: JavaScript numbers

`Number.MAX_SAFE_INTEGER`, conversion `Number(bigint)` (round to the
nearest IEEE-754 double, ties to even; exact for magnitudes up to 2^53),
and `Number.isSafeInteger` restricted to integer-valued numbers. -/

/-- Host model: `Number.MAX_SAFE_INTEGER` = 2^53 - 1. -/
def maxSafeInteger : Nat := 2 ^ 53 - 1

/-- Round `x` to the nearest multiple of `2 ^ k`, ties to the even multiple
(the rounding IEEE-754 applies to an integer whose magnitude needs more
than 53 bits). -/
def roundToMultiple (x k : Nat) : Nat :=
  if 2 * (x % 2 ^ k) < 2 ^ k then x / 2 ^ k * 2 ^ k
  else if 2 ^ k < 2 * (x % 2 ^ k) then (x / 2 ^ k + 1) * 2 ^ k
  else if x / 2 ^ k % 2 = 0 then x / 2 ^ k * 2 ^ k
  else (x / 2 ^ k + 1) * 2 ^ k

/-- Host model: JavaScript `Number(bigint)`.  Exact when the magnitude is
at most 2^53; otherwise the magnitude lies in `[2^m, 2^(m+1))` with
`m = log2`, the representable doubles there are the multiples of
`2 ^ (m - 52)`, and the nearest one is chosen. -/
def jsNumberOfBigInt (v : Int) : Int :=
  if v.natAbs ≤ 2 ^ 53 then v
  else if v < 0 then -(roundToMultiple v.natAbs (v.natAbs.log2 - 52) : Int)
  else (roundToMultiple v.natAbs (v.natAbs.log2 - 52) : Int)

/-- Host model: JavaScript `Number.isSafeInteger` on an integer-valued
number. -/
def jsIsSafeInteger (n : Int) : Bool := n.natAbs ≤ maxSafeInteger

/-! ## The dynamic value tree produced by the engine

A result cell is a JavaScript value: a bigint, a number, a string, a
boolean, null, an array, or a plain object (an ordered list of key/value
entries, the order `Object.entries` reports). -/

inductive JSValue where
  | bigint (v : Int)
  | num (v : Int)
  | str (s : String)
  | boolean (b : Bool)
  | null
  | arr (elems : List JSValue)
  | obj (fields : List (String × JSValue))

/-! ## Numeric Normalization: `convertBigIntValues` (src/lib/duckdb.ts lines 5-28)

`typeof data === 'bigint'` converts the leaf (`Number(data)` if
`Number.isSafeInteger` accepts it, else `data.toString()`);
`Array.isArray` recurses elementwise; other non-null objects are rebuilt
entry by entry over `Object.entries`; every other value is returned
unchanged. -/

mutual

def convertBigIntValues : JSValue → JSValue
  | .bigint v =>
      let numValue := jsNumberOfBigInt v
      if jsIsSafeInteger numValue then .num numValue else .str (toString v)
  | .arr elems => .arr (convertBigIntList elems)
  | .obj fields => .obj (convertBigIntFields fields)
  | .num v => .num v
  | .str s => .str s
  | .boolean b => .boolean b
  | .null => .null

def convertBigIntList : List JSValue → List JSValue
  | [] => []
  | x :: xs => convertBigIntValues x :: convertBigIntList xs

def convertBigIntFields : List (String × JSValue) → List (String × JSValue)
  | [] => []
  | (k, v) :: fs => (k, convertBigIntValues v) :: convertBigIntFields fs

end

/-! Spec-side restatement, for the refinement comparison of claim C1. -/

mutual

/-- Follows the spec's words: wide-integer values are converted to the
host's numeric type when they fit within the host's safe-integer range,
otherwise converted to a decimal-string text representation (never
silently rounded); sequences and mappings are recursed through unchanged
in shape; every other leaf is returned unchanged. -/
def normalizeSpec : JSValue → JSValue
  | .bigint v => if v.natAbs ≤ maxSafeInteger then .num v else .str (toString v)
  | .arr elems => .arr (normalizeSpecList elems)
  | .obj fields => .obj (normalizeSpecFields fields)
  | .num v => .num v
  | .str s => .str s
  | .boolean b => .boolean b
  | .null => .null

def normalizeSpecList : List JSValue → List JSValue
  | [] => []
  | x :: xs => normalizeSpec x :: normalizeSpecList xs

def normalizeSpecFields : List (String × JSValue) → List (String × JSValue)
  | [] => []
  | (k, v) :: fs => (k, normalizeSpec v) :: normalizeSpecFields fs

end

/-! ### The bigint leaf rule -/

theorem roundToMultiple_ge_floor (x k : Nat) :
    x / 2 ^ k * 2 ^ k ≤ roundToMultiple x k := by
  unfold roundToMultiple
  split
  · exact Nat.le_refl _
  · split
    · exact Nat.mul_le_mul_right _ (Nat.le_succ _)
    · split
      · exact Nat.le_refl _
      · exact Nat.mul_le_mul_right _ (Nat.le_succ _)

theorem roundToMultiple_large {a : Nat} (h : 2 ^ 53 < a) :
    2 ^ 53 ≤ roundToMultiple a (a.log2 - 52) := by
  have ha0 : a ≠ 0 := by omega
  have hself : 2 ^ a.log2 ≤ a := Nat.log2_self_le ha0
  have hlt : a < 2 ^ (a.log2 + 1) := Nat.lt_log2_self
  have hm53 : 53 ≤ a.log2 := by
    by_contra hcon
    have h1 : a.log2 + 1 ≤ 53 := by omega
    have h2 : (2 : Nat) ^ (a.log2 + 1) ≤ 2 ^ 53 := Nat.pow_le_pow_right (by omega) h1
    omega
  have hdiv : 2 ^ 52 ≤ a / 2 ^ (a.log2 - 52) := by
    have h1 : 2 ^ a.log2 / 2 ^ (a.log2 - 52) ≤ a / 2 ^ (a.log2 - 52) :=
      Nat.div_le_div_right hself
    have h2 : 2 ^ a.log2 / 2 ^ (a.log2 - 52) = 2 ^ (a.log2 - (a.log2 - 52)) :=
      Nat.pow_div (by omega) (by omega)
    have h3 : a.log2 - (a.log2 - 52) = 52 := by omega
    rw [h3] at h2
    omega
  have hfloor : 2 ^ 53 ≤ a / 2 ^ (a.log2 - 52) * 2 ^ (a.log2 - 52) := by
    have h4 : (2 : Nat) ^ 53 ≤ 2 ^ 52 * 2 ^ (a.log2 - 52) := by
      rw [← Nat.pow_add]
      exact Nat.pow_le_pow_right (by omega) (by omega)
    exact Nat.le_trans h4 (Nat.mul_le_mul_right _ hdiv)
  exact Nat.le_trans hfloor (roundToMultiple_ge_floor a (a.log2 - 52))

theorem jsNumberOfBigInt_natAbs_large {v : Int} (h : 2 ^ 53 < v.natAbs) :
    2 ^ 53 ≤ (jsNumberOfBigInt v).natAbs := by
  have hnotle : ¬ v.natAbs ≤ 2 ^ 53 := Nat.not_le.mpr h
  have hround := roundToMultiple_large h
  unfold jsNumberOfBigInt
  rw [if_neg hnotle]
  by_cases hv : v < 0
  · rw [if_pos hv, Int.natAbs_neg, Int.natAbs_ofNat]
    exact hround
  · rw [if_neg hv, Int.natAbs_ofNat]
    exact hround

theorem jsNumberOfBigInt_of_small {v : Int} (h : v.natAbs ≤ 2 ^ 53) :
    jsNumberOfBigInt v = v := by
  unfold jsNumberOfBigInt
  rw [if_pos h]

/-- The leaf rule of `convertBigIntValues` coincides with the spec's leaf
rule: exact conversion within the safe range, exact decimal string
outside it. -/
theorem convert_bigint_leaf (v : Int) :
    convertBigIntValues (.bigint v)
      = if v.natAbs ≤ maxSafeInteger then JSValue.num v
        else JSValue.str (toString v) := by
  show (if jsIsSafeInteger (jsNumberOfBigInt v) then
          JSValue.num (jsNumberOfBigInt v) else JSValue.str (toString v)) = _
  by_cases h : v.natAbs ≤ maxSafeInteger
  · have hsmall : v.natAbs ≤ 2 ^ 53 := by
      unfold maxSafeInteger at h; omega
    rw [jsNumberOfBigInt_of_small hsmall]
    have htrue : jsIsSafeInteger v = true := by
      unfold jsIsSafeInteger; exact decide_eq_true h
    simp only [htrue, if_true, if_pos h]
  · have hfalse : jsIsSafeInteger (jsNumberOfBigInt v) = false := by
      unfold jsIsSafeInteger
      apply decide_eq_false
      intro hcon
      by_cases hsmall : v.natAbs ≤ 2 ^ 53
      · rw [jsNumberOfBigInt_of_small hsmall] at hcon
        exact h hcon
      · have := jsNumberOfBigInt_natAbs_large (v := v) (by omega)
        unfold maxSafeInteger at hcon
        omega
    simp only [hfalse, Bool.false_eq_true, if_false, if_neg h]

mutual

theorem convert_eq_normalizeSpec : ∀ x : JSValue,
    convertBigIntValues x = normalizeSpec x
  | .bigint v => by
      rw [convert_bigint_leaf v]
      exact rfl
  | .arr elems => by
      show JSValue.arr (convertBigIntList elems) = JSValue.arr (normalizeSpecList elems)
      rw [convertList_eq_normalizeSpecList elems]
  | .obj fields => by
      show JSValue.obj (convertBigIntFields fields) = JSValue.obj (normalizeSpecFields fields)
      rw [convertFields_eq_normalizeSpecFields fields]
  | .num v => rfl
  | .str s => rfl
  | .boolean b => rfl
  | .null => rfl

theorem convertList_eq_normalizeSpecList : ∀ xs : List JSValue,
    convertBigIntList xs = normalizeSpecList xs
  | [] => rfl
  | x :: xs => by
      show convertBigIntValues x :: convertBigIntList xs
            = normalizeSpec x :: normalizeSpecList xs
      rw [convert_eq_normalizeSpec x, convertList_eq_normalizeSpecList xs]

theorem convertFields_eq_normalizeSpecFields : ∀ fs : List (String × JSValue),
    convertBigIntFields fs = normalizeSpecFields fs
  | [] => rfl
  | (k, v) :: fs => by
      show (k, convertBigIntValues v) :: convertBigIntFields fs
            = (k, normalizeSpec v) :: normalizeSpecFields fs
      rw [convert_eq_normalizeSpec v, convertFields_eq_normalizeSpecFields fs]

end

mutual

theorem normalizeSpec_idem : ∀ x : JSValue,
    normalizeSpec (normalizeSpec x) = normalizeSpec x
  | .bigint v => by
      have hleaf : normalizeSpec (JSValue.bigint v)
          = if v.natAbs ≤ maxSafeInteger then JSValue.num v
            else JSValue.str (toString v) := rfl
      rw [hleaf]
      by_cases h : v.natAbs ≤ maxSafeInteger
      · rw [if_pos h]
        exact rfl
      · rw [if_neg h]
        exact rfl
  | .arr elems => by
      show JSValue.arr (normalizeSpecList (normalizeSpecList elems))
            = JSValue.arr (normalizeSpecList elems)
      rw [normalizeSpecList_idem elems]
  | .obj fields => by
      show JSValue.obj (normalizeSpecFields (normalizeSpecFields fields))
            = JSValue.obj (normalizeSpecFields fields)
      rw [normalizeSpecFields_idem fields]
  | .num v => rfl
  | .str s => rfl
  | .boolean b => rfl
  | .null => rfl

theorem normalizeSpecList_idem : ∀ xs : List JSValue,
    normalizeSpecList (normalizeSpecList xs) = normalizeSpecList xs
  | [] => rfl
  | x :: xs => by
      show normalizeSpec (normalizeSpec x) :: normalizeSpecList (normalizeSpecList xs)
            = normalizeSpec x :: normalizeSpecList xs
      rw [normalizeSpec_idem x, normalizeSpecList_idem xs]

theorem normalizeSpecFields_idem : ∀ fs : List (String × JSValue),
    normalizeSpecFields (normalizeSpecFields fs) = normalizeSpecFields fs
  | [] => rfl
  | (k, v) :: fs => by
      show (k, normalizeSpec (normalizeSpec v)) :: normalizeSpecFields (normalizeSpecFields fs)
            = (k, normalizeSpec v) :: normalizeSpecFields fs
      rw [normalizeSpec_idem v, normalizeSpecFields_idem fs]

end

/-- C1: every bigint leaf of every value passed to `convertBigIntValues`
is converted to the host's numeric type exactly when its value lies
within the host's safe-integer range (the conversion is then exact), and
otherwise to its exact decimal-string representation; non-leaf structure
and all other leaves are preserved — i.e. the function coincides with the
spec's `normalize`. -/
theorem C1_convertBigIntValues_matches_spec (x : JSValue) :
    convertBigIntValues x = normalizeSpec x :=
  convert_eq_normalizeSpec x

/-- C7: Numeric Normalization is idempotent — normalizing an
already-normalized value returns it unchanged. -/
theorem C7_convertBigIntValues_idempotent (x : JSValue) :
    convertBigIntValues (convertBigIntValues x) = convertBigIntValues x := by
  rw [convert_eq_normalizeSpec x, convert_eq_normalizeSpec (normalizeSpec x)]
  exact normalizeSpec_idem x

/-! ## Columnar-binary (Parquet) ingestor fallback (src/lib/duckdb.ts lines 108-135)

When `CREATE TABLE … AS SELECT * FROM parquet_scan(…)` fails, the source
introspects the schema with `DESCRIBE parquet_scan(…)` and rebuilds the
column list: a column whose type string *contains* the substring
`BIGINT` or `HUGEINT` (JavaScript `String.prototype.includes`) is
redeclared as `VARCHAR`, every other column keeps its declared type; the
table is created with that column list and populated by an
`INSERT … SELECT` over the scan. -/

/-- Host model of JavaScript `String.prototype.includes`: substring
containment, scanned left to right over the characters. -/
def includesAux (pat : List Char) : List Char → Bool
  | [] => pat.isEmpty
  | c :: cs => pat.isPrefixOf (c :: cs) || includesAux pat cs

/-- `strIncludes s pat` is JavaScript `s.includes(pat)`. -/
def strIncludes (s pat : String) : Bool :=
  includesAux pat.data s.data

/-- One schema row `(column_name, column_type)` mapped to a column
definition, exactly as the fallback's `schemaRows.map` does. -/
def rewriteColumnDef (row : String × String) : String :=
  if strIncludes row.2 "BIGINT" || strIncludes row.2 "HUGEINT" then
    "\"" ++ row.1 ++ "\" VARCHAR"
  else
    "\"" ++ row.1 ++ "\" " ++ row.2

/-- The fallback's `CREATE TABLE` statement (the `.join(', ')` of the
rewritten column definitions). -/
def parquetFallbackCreate (tableName : String) (schemaRows : List (String × String)) : String :=
  "CREATE TABLE " ++ tableName ++ " ("
    ++ String.intercalate ", " (schemaRows.map rewriteColumnDef) ++ ")"

/-- The fallback's populating statement: an `INSERT … SELECT` over the
scan of the registered file (whitespace of the source's template literal
normalized). -/
def parquetFallbackInsert (tableName fileName : String) : String :=
  "INSERT INTO " ++ tableName ++ " SELECT * FROM (SELECT * FROM parquet_scan("
    ++ "'memory://" ++ fileName ++ "')) t"

/-- The two statements the fallback path issues after `DESCRIBE`, in
order. -/
def parquetFallbackStatements (tableName fileName : String)
    (schemaRows : List (String × String)) : List String :=
  [parquetFallbackCreate tableName schemaRows,
   parquetFallbackInsert tableName fileName]

/-- The claim's predicate, following its words: the declared type *is* a
64-bit or 128-bit integer type (BIGINT/HUGEINT, including the unsigned
variants DuckDB's `DESCRIBE` can report). -/
def isWideIntegerTypeName (ty : String) : Bool :=
  ty == "BIGINT" || ty == "UBIGINT" || ty == "HUGEINT" || ty == "UHUGEINT"

theorem rewriteColumnDef_of_match {name ty : String}
    (h : (strIncludes ty "BIGINT" || strIncludes ty "HUGEINT") = true) :
    rewriteColumnDef (name, ty) = "\"" ++ name ++ "\" VARCHAR" := by
  unfold rewriteColumnDef
  rw [if_pos h]

theorem rewriteColumnDef_of_no_match {name ty : String}
    (h : (strIncludes ty "BIGINT" || strIncludes ty "HUGEINT") = false) :
    rewriteColumnDef (name, ty) = "\"" ++ name ++ "\" " ++ ty := by
  unfold rewriteColumnDef
  rw [if_neg (by rw [h]; exact Bool.false_ne_true)]

/-- C2, counterexample: the fallback keys on *substring containment*, not
on the declared type being a wide-integer type.  A list-of-BIGINT column
(`DESCRIBE` type string `BIGINT[]`) is not a 64-bit or 128-bit integer
type, yet its declared type is rewritten to `VARCHAR` rather than left
unchanged, refuting the claim's "exactly those columns". -/
theorem C2_counterexample_list_of_bigint :
    rewriteColumnDef ("c", "BIGINT[]") = "\"c\" VARCHAR"
      ∧ isWideIntegerTypeName "BIGINT[]" = false
      ∧ rewriteColumnDef ("c", "BIGINT[]") ≠ "\"c\" " ++ "BIGINT[]" := by
  refine ⟨by decide, by decide, by decide⟩

/-- C2 (amended): in the fallback path the rewritten schema redeclares as
`VARCHAR` exactly those columns whose declared type string contains
`BIGINT` or `HUGEINT` as a substring — in particular every column whose
declared type is a 64-bit/128-bit integer type — and leaves every other
column's declared type unchanged; the table is then created with the
rewritten column list and populated by an `INSERT … SELECT` over the
scan. -/
theorem C2_fallback_schema_rewrite (name ty tableName fileName : String)
    (schemaRows : List (String × String)) :
    (isWideIntegerTypeName ty = true →
        rewriteColumnDef (name, ty) = "\"" ++ name ++ "\" VARCHAR")
      ∧ ((strIncludes ty "BIGINT" || strIncludes ty "HUGEINT") = true →
        rewriteColumnDef (name, ty) = "\"" ++ name ++ "\" VARCHAR")
      ∧ ((strIncludes ty "BIGINT" || strIncludes ty "HUGEINT") = false →
        rewriteColumnDef (name, ty) = "\"" ++ name ++ "\" " ++ ty)
      ∧ parquetFallbackStatements tableName fileName schemaRows
          = ["CREATE TABLE " ++ tableName ++ " ("
              ++ String.intercalate ", " (schemaRows.map rewriteColumnDef) ++ ")",
             parquetFallbackInsert tableName fileName] := by
  refine ⟨?_, rewriteColumnDef_of_match, rewriteColumnDef_of_no_match, rfl⟩
  intro h
  apply rewriteColumnDef_of_match
  unfold isWideIntegerTypeName at h
  rcases Bool.or_eq_true_iff.mp h with h1 | h4
  rcases Bool.or_eq_true_iff.mp h1 with h2 | h3
  rcases Bool.or_eq_true_iff.mp h2 with h5 | h6
  · rw [eq_of_beq h5]; decide
  · rw [eq_of_beq h6]; decide
  · rw [eq_of_beq h3]; decide
  · rw [eq_of_beq h4]; decide

/-- Witness for C2's amended theorem at concrete inputs: a `HUGEINT`
column is rewritten to `VARCHAR`, a `DOUBLE` column is left unchanged,
and the fallback issues the create-then-insert pair. -/
theorem C2_fallback_schema_rewrite_witness :
    rewriteColumnDef ("h", "HUGEINT") = "\"h\" VARCHAR"
      ∧ rewriteColumnDef ("d", "DOUBLE") = "\"d\" DOUBLE"
      ∧ parquetFallbackStatements "t" "f.parquet" [("h", "HUGEINT")]
          = ["CREATE TABLE t (" ++ String.intercalate ", "
              ([("h", "HUGEINT")].map rewriteColumnDef) ++ ")",
             parquetFallbackInsert "t" "f.parquet"] := by
  refine ⟨?_, ?_, ?_⟩
  · exact (C2_fallback_schema_rewrite "h" "HUGEINT" "t" "f.parquet" []).1 (by decide)
  · exact (C2_fallback_schema_rewrite "d" "DOUBLE" "t" "f.parquet" []).2.2.1 (by decide)
  · exact (C2_fallback_schema_rewrite "h" "HUGEINT" "t" "f.parquet" [("h", "HUGEINT")]).2.2.2

/-! ## Decimal numerals

The registry's collision counter is rendered with the host's
number-to-string conversion (template literal), embedded as `toString`
on `Nat` (`Nat.repr`).  The injectivity of that rendering is what makes
the suffixed candidate names pairwise distinct, so we prove it: the
fuel-based core printer equals a structural digit list whose value can
be parsed back. -/

/-- Big-endian decimal digit characters of `n` (`"0"` for 0), the list
`Nat.toDigitsCore` builds. -/
def natDigits (n : Nat) : List Char :=
  if _h : n < 10 then [Nat.digitChar n]
  else natDigits (n / 10) ++ [Nat.digitChar (n % 10)]
decreasing_by exact Nat.div_lt_self (by omega) (by omega)

theorem natDigits_lt {n : Nat} (h : n < 10) : natDigits n = [Nat.digitChar n] := by
  conv_lhs => rw [natDigits]
  rw [dif_pos h]

theorem natDigits_ge {n : Nat} (h : ¬ n < 10) :
    natDigits n = natDigits (n / 10) ++ [Nat.digitChar (n % 10)] := by
  conv_lhs => rw [natDigits]
  rw [dif_neg h]

theorem natDigits_length_pos (n : Nat) : 0 < (natDigits n).length := by
  by_cases h : n < 10
  · rw [natDigits_lt h]; simp
  · rw [natDigits_ge h]; simp

theorem toDigitsCore_eq_natDigits :
    ∀ (fuel n : Nat) (ds : List Char), n < fuel →
      Nat.toDigitsCore 10 fuel n ds = natDigits n ++ ds := by
  intro fuel
  induction fuel with
  | zero => intro n ds h; omega
  | succ fuel ih =>
    intro n ds h
    show (if n / 10 = 0 then Nat.digitChar (n % 10) :: ds
          else Nat.toDigitsCore 10 fuel (n / 10) (Nat.digitChar (n % 10) :: ds))
        = natDigits n ++ ds
    by_cases h0 : n / 10 = 0
    · rw [if_pos h0]
      have hn : n < 10 := by omega
      rw [natDigits_lt hn, Nat.mod_eq_of_lt hn]
      rfl
    · rw [if_neg h0]
      have hlt : n / 10 < fuel := by
        have hd : n / 10 < n := Nat.div_lt_self (by omega) (by omega)
        omega
      rw [ih (n / 10) (Nat.digitChar (n % 10) :: ds) hlt]
      conv_rhs => rw [natDigits_ge (show ¬ n < 10 by omega)]
      rw [List.append_assoc]
      rfl

/-- Inverse of `Nat.digitChar` on decimal digits. -/
def digitVal (c : Char) : Nat := c.toNat - 48

/-- Parse a big-endian decimal digit list back to its value. -/
def digitsVal (l : List Char) : Nat :=
  l.foldl (fun a c => a * 10 + digitVal c) 0

theorem digitVal_digitChar : ∀ d : Nat, d < 10 → digitVal (Nat.digitChar d) = d := by
  decide

theorem digitsVal_append_digit (l : List Char) (c : Char) :
    digitsVal (l ++ [c]) = digitsVal l * 10 + digitVal c := by
  unfold digitsVal
  rw [List.foldl_append]
  rfl

theorem digitsVal_natDigits (n : Nat) : digitsVal (natDigits n) = n := by
  induction n using Nat.strong_induction_on with
  | _ n ih =>
    by_cases h : n < 10
    · rw [natDigits_lt h]
      show 0 * 10 + digitVal (Nat.digitChar n) = n
      rw [digitVal_digitChar n h]
      omega
    · rw [natDigits_ge h, digitsVal_append_digit]
      rw [ih (n / 10) (Nat.div_lt_self (by omega) (by omega))]
      rw [digitVal_digitChar (n % 10) (by omega)]
      omega

theorem natDigits_injective {m n : Nat} (h : natDigits m = natDigits n) : m = n := by
  have h2 := congrArg digitsVal h
  rwa [digitsVal_natDigits, digitsVal_natDigits] at h2

theorem repr_eq_natDigits (n : Nat) : Nat.repr n = (natDigits n).asString := by
  show (Nat.toDigits 10 n).asString = (natDigits n).asString
  rw [show Nat.toDigits 10 n = Nat.toDigitsCore 10 (n + 1) n [] from rfl]
  rw [toDigitsCore_eq_natDigits (n + 1) n [] (Nat.lt_succ_self n)]
  rw [List.append_nil]

theorem toString_nat_data (n : Nat) : (toString n).data = natDigits n := by
  show (Nat.repr n).data = natDigits n
  rw [repr_eq_natDigits]
  rfl

theorem toString_nat_length_pos (n : Nat) : 0 < (toString n).length := by
  show 0 < (toString n).data.length
  rw [toString_nat_data]
  exact natDigits_length_pos n

theorem toString_nat_injective {m n : Nat} (h : toString m = toString n) : m = n := by
  have h2 := congrArg String.data h
  rw [toString_nat_data, toString_nat_data] at h2
  exact natDigits_injective h2

/-! ## Table Registry (src/context/DuckDBContext.tsx)

`TableInfo` records `{ name, fileType, fileName }`; `generateTableName`
(lines 134-148) derives `file_<ext>_<sanitized base name>` — the file
name with the first occurrence of `.<ext>` removed and every
non-alphanumeric character replaced by an underscore — and appends
`_1`, `_2`, … while the candidate collides with an existing registry
entry. -/

structure TableInfo where
  name : String
  fileType : String
  fileName : String
deriving DecidableEq

def tableNames (tables : List TableInfo) : List String :=
  tables.map TableInfo.name

/-- Host model of JavaScript `fileName.replace('.' + ext, '')` with a
plain-string pattern: remove the first occurrence of the pattern,
scanning left to right (the string is unchanged when the pattern does
not occur). -/
def removeOnceAux (pat : List Char) : List Char → List Char
  | [] => []
  | c :: cs =>
      if pat.isPrefixOf (c :: cs) then (c :: cs).drop pat.length
      else c :: removeOnceAux pat cs

def removeFirstOccurrence (s pat : String) : String :=
  String.mk (removeOnceAux pat.data s.data)

/-- One character of the sanitizing `replace(/[^a-zA-Z0-9]/g, '_')`. -/
def sanitizeChar (c : Char) : Char :=
  if c.isAlphanum then c else '_'

/-- The character-wise sanitizing replace, applied to every character of
the string. -/
def sanitize (s : String) : String :=
  String.mk (s.data.map sanitizeChar)

/-- The pre-collision table name: format tag, then the sanitized base
name. -/
def baseTableName (fileName ext : String) : String :=
  "file_" ++ ext ++ "_" ++ sanitize (removeFirstOccurrence fileName ("." ++ ext))

/-- The `counter`-th candidate the collision loop tries: the base name
itself, then `base_1`, `base_2`, …. -/
def candidateName (base : String) : Nat → String
  | 0 => base
  | k + 1 => base ++ "_" ++ toString (k + 1)

/-- The source's `while (tables.some(t => t.name === finalName))` loop.
The fuel argument only bounds the iteration count for totality;
`tables.length + 1` iterations always suffice to reach a free candidate
(`exists_fresh_candidate`), so the loop is the JavaScript one. -/
def genLoop (tables : List TableInfo) (base : String) : Nat → Nat → String
  | 0, k => candidateName base k
  | fuel + 1, k =>
      if tables.any (fun t => t.name == candidateName base k) then
        genLoop tables base fuel (k + 1)
      else candidateName base k

def generateTableName (tables : List TableInfo) (fileName ext : String) : String :=
  genLoop tables (baseTableName fileName ext) (tables.length + 1) 0

theorem candidateName_injective (base : String) :
    Function.Injective (candidateName base) := by
  have hlen : ∀ j : Nat, (candidateName base (j + 1)).length
      = base.length + 1 + (toString (j + 1)).length := by
    intro j
    show (base ++ "_" ++ toString (j + 1)).length = _
    rw [String.length_append, String.length_append]
    rfl
  have hc0 : (candidateName base 0).length = base.length := rfl
  intro i j h
  match i, j with
  | 0, 0 => rfl
  | 0, j + 1 =>
      exfalso
      have h2 := congrArg String.length h
      rw [hlen j, hc0] at h2
      have h3 := toString_nat_length_pos (j + 1)
      omega
  | i + 1, 0 =>
      exfalso
      have h2 := congrArg String.length h
      rw [hlen i, hc0] at h2
      have h3 := toString_nat_length_pos (i + 1)
      omega
  | i + 1, j + 1 =>
      have h2 : (base ++ "_" ++ toString (i + 1)).data
          = (base ++ "_" ++ toString (j + 1)).data := congrArg String.data h
      rw [String.data_append, String.data_append, String.data_append, String.data_append,
        List.append_assoc, List.append_assoc] at h2
      have h3 := List.append_cancel_left h2
      have h4 := List.append_cancel_left h3
      rw [toString_nat_data, toString_nat_data] at h4
      rw [natDigits_injective h4]

theorem mem_tableNames_iff_any {tables : List TableInfo} {s : String} :
    s ∈ tableNames tables ↔ tables.any (fun t => t.name == s) = true := by
  constructor
  · intro hmem
    rcases List.mem_map.mp hmem with ⟨t, ht, hts⟩
    exact List.any_eq_true.mpr ⟨t, ht, beq_iff_eq.mpr hts⟩
  · intro hany
    rcases List.any_eq_true.mp hany with ⟨t, ht, hts⟩
    exact List.mem_map.mpr ⟨t, ht, eq_of_beq hts⟩

theorem exists_fresh_candidate (tables : List TableInfo) (base : String) :
    ∃ j, j < tables.length + 1 ∧ candidateName base j ∉ tableNames tables := by
  by_contra hcon
  push_neg at hcon
  have hsub : (List.range (tables.length + 1)).map (candidateName base)
      ⊆ tableNames tables := by
    intro x hx
    rcases List.mem_map.mp hx with ⟨j, hj, rfl⟩
    exact hcon j (List.mem_range.mp hj)
  have hnd : ((List.range (tables.length + 1)).map (candidateName base)).Nodup :=
    (List.nodup_range _).map (candidateName_injective base)
  have hle := (hnd.subperm hsub).length_le
  rw [List.length_map, List.length_range] at hle
  have hlen : (tableNames tables).length = tables.length := List.length_map _ _
  omega

theorem genLoop_fresh (tables : List TableInfo) (base : String) :
    ∀ (fuel k : Nat),
      (∃ j, k ≤ j ∧ j < k + fuel ∧ candidateName base j ∉ tableNames tables) →
      genLoop tables base fuel k ∉ tableNames tables := by
  intro fuel
  induction fuel with
  | zero =>
      intro k hex
      rcases hex with ⟨j, h1, h2, _⟩
      omega
  | succ fuel ih =>
      intro k hex
      rcases hex with ⟨j, h1, h2, hj⟩
      show (if tables.any (fun t => t.name == candidateName base k) = true then
              genLoop tables base fuel (k + 1)
            else candidateName base k) ∉ tableNames tables
      by_cases hc : tables.any (fun t => t.name == candidateName base k) = true
      · rw [if_pos hc]
        apply ih
        have hkmem : candidateName base k ∈ tableNames tables :=
          mem_tableNames_iff_any.mpr hc
        have hjk : j ≠ k := by
          intro he
          rw [he] at hj
          exact hj hkmem
        exact ⟨j, by omega, by omega, hj⟩
      · rw [if_neg hc]
        intro hmem
        exact hc (mem_tableNames_iff_any.mp hmem)

theorem genLoop_shape (tables : List TableInfo) (base : String) :
    ∀ (fuel k : Nat), ∃ j, genLoop tables base fuel k = candidateName base j := by
  intro fuel
  induction fuel with
  | zero => intro k; exact ⟨k, rfl⟩
  | succ fuel ih =>
      intro k
      show ∃ j, (if tables.any (fun t => t.name == candidateName base k) = true then
              genLoop tables base fuel (k + 1)
            else candidateName base k) = candidateName base j
      by_cases hc : tables.any (fun t => t.name == candidateName base k) = true
      · rw [if_pos hc]; exact ih (k + 1)
      · rw [if_neg hc]; exact ⟨k, rfl⟩

theorem generateTableName_fresh (tables : List TableInfo) (fileName ext : String) :
    generateTableName tables fileName ext ∉ tableNames tables := by
  apply genLoop_fresh
  rcases exists_fresh_candidate tables (baseTableName fileName ext) with ⟨j, hj, hfree⟩
  exact ⟨j, Nat.zero_le _, by omega, hfree⟩

theorem generateTableName_no_collision (tables : List TableInfo) (fileName ext : String)
    (h : baseTableName fileName ext ∉ tableNames tables) :
    generateTableName tables fileName ext = baseTableName fileName ext := by
  show (if tables.any (fun t => t.name == candidateName (baseTableName fileName ext) 0) = true
        then genLoop tables (baseTableName fileName ext) tables.length 1
        else candidateName (baseTableName fileName ext) 0) = baseTableName fileName ext
  have hni : ¬ ((tables.any fun t =>
      t.name == candidateName (baseTableName fileName ext) 0) = true) :=
    fun hc => h (mem_tableNames_iff_any.mpr hc)
  rw [if_neg hni]
  rfl

/-- Registering the file appends the freshly derived record, as
`registerFile` does on success (src/context/DuckDBContext.tsx lines
89-101). -/
def ingestRecord (tables : List TableInfo) (fileName ext : String) : List TableInfo :=
  tables ++ [⟨generateTableName tables fileName ext, ext, fileName⟩]

/-- N successive (successful) ingestions. -/
def ingestAll (tables : List TableInfo) : List (String × String) → List TableInfo
  | [] => tables
  | (fileName, ext) :: rest => ingestAll (ingestRecord tables fileName ext) rest

theorem tableNames_ingestRecord (tables : List TableInfo) (fileName ext : String) :
    tableNames (ingestRecord tables fileName ext)
      = tableNames tables ++ [generateTableName tables fileName ext] := by
  unfold ingestRecord tableNames
  rw [List.map_append]
  rfl

theorem ingestRecord_nodup {tables : List TableInfo} (fileName ext : String)
    (h : (tableNames tables).Nodup) :
    (tableNames (ingestRecord tables fileName ext)).Nodup := by
  rw [tableNames_ingestRecord]
  rw [List.nodup_append]
  refine ⟨h, List.nodup_singleton _, ?_⟩
  intro a ha hb
  rw [List.mem_singleton] at hb
  rw [hb] at ha
  exact generateTableName_fresh tables fileName ext ha

theorem ingestAll_nodup :
    ∀ (files : List (String × String)) (tables : List TableInfo),
      (tableNames tables).Nodup →
      (tableNames (ingestAll tables files)).Nodup
        ∧ (ingestAll tables files).length = tables.length + files.length := by
  intro files
  induction files with
  | nil => intro tables h; exact ⟨h, by simp [ingestAll]⟩
  | cons fe rest ih =>
      intro tables h
      rcases fe with ⟨fileName, ext⟩
      have hstep := ih (ingestRecord tables fileName ext)
        (ingestRecord_nodup fileName ext h)
      refine ⟨hstep.1, ?_⟩
      have hlen : (ingestRecord tables fileName ext).length = tables.length + 1 := by
        unfold ingestRecord
        rw [List.length_append]
        rfl
      show (ingestAll (ingestRecord tables fileName ext) rest).length
        = tables.length + (rest.length + 1)
      rw [hstep.2, hlen]
      omega

/-- C4: table-name derivation is deterministic in the registry state (it
is a pure function of it), derives its base from the sanitized file name
prefixed by the format tag, appends an incrementing numeric suffix on
collision until unique (so the generated name is always fresh, and equals
the base when the base is free), and N successive ingestions extend the
registry by N records whose names are pairwise distinct. -/
theorem C4_table_name_derivation (tables : List TableInfo) (fileName ext : String)
    (files : List (String × String)) :
    generateTableName tables fileName ext ∉ tableNames tables
      ∧ (∃ k, generateTableName tables fileName ext
          = candidateName (baseTableName fileName ext) k)
      ∧ (baseTableName fileName ext ∉ tableNames tables →
          generateTableName tables fileName ext = baseTableName fileName ext)
      ∧ ((tableNames tables).Nodup →
          (tableNames (ingestAll tables files)).Nodup
            ∧ (ingestAll tables files).length = tables.length + files.length) :=
  ⟨generateTableName_fresh tables fileName ext,
   genLoop_shape tables (baseTableName fileName ext) (tables.length + 1) 0,
   generateTableName_no_collision tables fileName ext,
   ingestAll_nodup files tables⟩

/-- Witness for C4 at concrete inputs: from the empty registry, three
ingestions of `data.csv` yield three records with pairwise distinct
names, the first of which is the unsuffixed base name. -/
theorem C4_table_name_derivation_witness :
    generateTableName [] "data.csv" "csv" ∉ tableNames []
      ∧ generateTableName [] "data.csv" "csv" = baseTableName "data.csv" "csv"
      ∧ (tableNames (ingestAll []
          [("data.csv", "csv"), ("data.csv", "csv"), ("data.csv", "csv")])).Nodup
      ∧ (ingestAll []
          [("data.csv", "csv"), ("data.csv", "csv"), ("data.csv", "csv")]).length = 3 := by
  have h := C4_table_name_derivation [] "data.csv" "csv"
    [("data.csv", "csv"), ("data.csv", "csv"), ("data.csv", "csv")]
  have hnodup : (tableNames ([] : List TableInfo)).Nodup := by decide
  have hbase : baseTableName "data.csv" "csv" ∉ tableNames [] := by decide
  exact ⟨h.1, h.2.2.1 hbase, (h.2.2.2 hnodup).1, (h.2.2.2 hnodup).2⟩

/-! ## Registry/engine lockstep (C3)

The joint state: the engine's set of materialized tables (modelled as the
list of their names) and the registry (`tables` state of the context).
`registerFileAsTable` (src/lib/duckdb.ts lines 84-181) touches the
engine; `registerFile` (src/context/DuckDBContext.tsx lines 80-107)
appends the registry record only when `registerFileAsTable` resolves,
and leaves the registry unchanged when it throws. -/

structure AppState where
  engine : List String
  registry : List TableInfo
deriving DecidableEq

/-- Which way an ingestion run can go, as the source's engine calls can
resolve or reject.  `errBeforeCreate`: the failure precedes any table
creation (CSV/Parquet `CREATE TABLE AS` rejected and, for Parquet, the
fallback's `CREATE TABLE` also rejected, or an unsupported extension).
`errAfterCreate`: the `CREATE TABLE` succeeded and a later statement
failed (a spreadsheet row `INSERT` — lines 156-177 — or the Parquet
fallback's `INSERT … SELECT` — lines 126-134); the source has no
cleanup, so the created table stays in the engine. -/
inductive IngestResult where
  | ok
  | errBeforeCreate
  | errAfterCreate
deriving DecidableEq

/-- Effect of `registerFileAsTable` on the engine table set, with `true`
for a resolved promise and `false` for a rejected one. -/
def registerFileAsTableEff (engine : List String) (tableName : String)
    (r : IngestResult) : List String × Bool :=
  match r with
  | .ok => (engine ++ [tableName], true)
  | .errBeforeCreate => (engine, false)
  | .errAfterCreate => (engine ++ [tableName], false)

/-- `registerFile`: derive the name from the current registry, run the
ingestor, and append the record only on success (the catch branch only
sets the error message). -/
def registerFile (s : AppState) (fileName ext : String) (r : IngestResult) : AppState :=
  let tableName := generateTableName s.registry fileName ext
  let step := registerFileAsTableEff s.engine tableName r
  if step.2 then
    { engine := step.1,
      registry := s.registry ++ [⟨tableName, ext, fileName⟩] }
  else
    { engine := step.1, registry := s.registry }

/-- The spec's lockstep invariant: a record named `n` exists iff a
queryable table named `n` exists in the engine. -/
def lockstep (s : AppState) : Prop :=
  ∀ n : String, n ∈ tableNames s.registry ↔ n ∈ s.engine

/-- C3, counterexample: from the empty (lockstep) state, a spreadsheet
ingestion whose `CREATE TABLE` succeeds and whose row `INSERT` then
fails leaves the created engine table with no registry record — the
engine→registry direction of the invariant is violated. -/
theorem C3_counterexample_partial_ingest :
    lockstep { engine := [], registry := [] }
      ∧ (registerFile { engine := [], registry := [] } "a.xlsx" "xlsx"
          .errAfterCreate).engine = [generateTableName [] "a.xlsx" "xlsx"]
      ∧ (registerFile { engine := [], registry := [] } "a.xlsx" "xlsx"
          .errAfterCreate).registry = []
      ∧ ¬ lockstep (registerFile { engine := [], registry := [] } "a.xlsx" "xlsx"
          .errAfterCreate) := by
  refine ⟨?_, rfl, rfl, ?_⟩
  · intro n
    constructor
    · intro hmem
      exact absurd hmem (List.not_mem_nil n)
    · intro hmem
      exact absurd hmem (List.not_mem_nil n)
  · intro hls
    have h := (hls (generateTableName [] "a.xlsx" "xlsx")).mpr
      (by rw [show (registerFile { engine := [], registry := [] } "a.xlsx" "xlsx"
            .errAfterCreate).engine = [generateTableName [] "a.xlsx" "xlsx"] from rfl]
          exact List.mem_singleton.mpr rfl)
    rw [show (registerFile { engine := [], registry := [] } "a.xlsx" "xlsx"
          .errAfterCreate).registry = [] from rfl] at h
    exact absurd h (List.not_mem_nil _)

/-- C3 (amended): the registry→engine half of the invariant does hold
after every `registerFile`, whatever the outcome — every registry record
keeps naming an existing engine table — and a fully successful ingestion
preserves the full iff invariant; but an ingestion that fails after the
engine-side table is created (`errAfterCreate`) leaves an engine table
with no registry record, so the engine→registry half can be broken by a
partial failure (see the counterexample). -/
theorem C3_lockstep (s : AppState) (fileName ext : String) (r : IngestResult) :
    ((∀ t ∈ s.registry, t.name ∈ s.engine) →
        ∀ t ∈ (registerFile s fileName ext r).registry,
          t.name ∈ (registerFile s fileName ext r).engine)
      ∧ (r = .ok → lockstep s → lockstep (registerFile s fileName ext r)) := by
  constructor
  · intro hhalf t ht
    match r with
    | .ok =>
        rcases List.mem_append.mp ht with hold | hnew
        · exact List.mem_append.mpr (Or.inl (hhalf t hold))
        · rw [List.mem_singleton.mp hnew]
          exact List.mem_append.mpr (Or.inr (List.mem_singleton.mpr rfl))
    | .errBeforeCreate => exact hhalf t ht
    | .errAfterCreate => exact List.mem_append.mpr (Or.inl (hhalf t ht))
  · rintro rfl hls n
    show n ∈ tableNames (s.registry ++ [⟨generateTableName s.registry fileName ext, ext, fileName⟩])
        ↔ n ∈ s.engine ++ [generateTableName s.registry fileName ext]
    unfold tableNames
    rw [List.map_append, List.mem_append, List.mem_append]
    constructor
    · intro hmem
      rcases hmem with hold | hnew
      · exact Or.inl ((hls n).mp hold)
      · exact Or.inr hnew
    · intro hmem
      rcases hmem with hold | hnew
      · exact Or.inl ((hls n).mpr hold)
      · exact Or.inr hnew

/-- Witness for C3's amended theorem at concrete inputs: a successful
CSV ingestion from the empty state keeps both halves of the invariant. -/
theorem C3_lockstep_witness :
    (∀ t ∈ (registerFile { engine := [], registry := [] } "b.csv" "csv" .ok).registry,
        t.name ∈ (registerFile { engine := [], registry := [] } "b.csv" "csv" .ok).engine)
      ∧ lockstep (registerFile { engine := [], registry := [] } "b.csv" "csv" .ok) := by
  have h := C3_lockstep { engine := [], registry := [] } "b.csv" "csv" .ok
  refine ⟨h.1 (by intro t ht; exact absurd ht (List.not_mem_nil t)), ?_⟩
  apply h.2 rfl
  intro n
  constructor
  · intro hmem
    exact absurd hmem (List.not_mem_nil n)
  · intro hmem
    exact absurd hmem (List.not_mem_nil n)

/-! ## Table removal (C5)

`FileSelector.handleRemoveFile` awaits `removeTable(t.name)` from the
DuckDB context, but the context implementation shipped under `src/` does
not contain `removeTable`; only its caller and the context interface
exist.  The operation is therefore modelled from the spec. -/

inductive RemoveError where
  | notFound
  | dropFailed
deriving DecidableEq

/-- Modelled from the spec: the context's `removeTable` operation
(`remove(name) -> Result<void, NotFoundError>`), whose implementation is
missing from `src/` (only `FileSelector.handleRemoveFile`, its caller,
and the context type are present).  Per the spec: removal of an unknown
name fails with `NotFoundError`; otherwise the backing engine table is
dropped first and the record deleted only afterwards, so a failed drop
(`dropSucceeds = false`, an engine-side rejection) leaves the record in
place. -/
def removeTable (s : AppState) (name : String) (dropSucceeds : Bool) :
    AppState × Except RemoveError Unit :=
  if s.registry.any (fun t => t.name == name) then
    if dropSucceeds then
      ({ engine := s.engine.filter (fun e => ¬ (e == name)),
         registry := s.registry.filter (fun t => ¬ (t.name == name)) },
       Except.ok ())
    else (s, Except.error RemoveError.dropFailed)
  else (s, Except.error RemoveError.notFound)

/-- Engine model: executing a query that references table `name`
succeeds exactly when the engine holds a table of that name, and
otherwise fails with a table-not-found error (DuckDB's
`Catalog Error: Table … does not exist`). -/
inductive QueryError where
  | tableNotFound
deriving DecidableEq

def queryReferencing (engine : List String) (name : String) : Except QueryError Unit :=
  if name ∈ engine then Except.ok () else Except.error QueryError.tableNotFound

theorem registry_any_iff {registry : List TableInfo} {name : String} :
    (registry.any fun t => t.name == name) = true ↔ name ∈ tableNames registry := by
  rw [mem_tableNames_iff_any]

/-- C5: removing a known name with a successful engine-side drop removes
both the registry record and the engine table, and a subsequent query
referencing that name fails with a table-not-found error; if the drop
fails, the record (and the state) is untouched and an error is returned;
removing an unknown name fails with `NotFoundError` and changes
nothing. -/
theorem C5_removeTable_contract (s : AppState) (name : String) (dropSucceeds : Bool) :
    (name ∈ tableNames s.registry → dropSucceeds = true →
        (removeTable s name dropSucceeds).2 = Except.ok ()
          ∧ name ∉ tableNames (removeTable s name dropSucceeds).1.registry
          ∧ name ∉ (removeTable s name dropSucceeds).1.engine
          ∧ queryReferencing (removeTable s name dropSucceeds).1.engine name
              = Except.error QueryError.tableNotFound)
      ∧ (name ∈ tableNames s.registry → dropSucceeds = false →
          (removeTable s name dropSucceeds).1 = s
            ∧ (removeTable s name dropSucceeds).2 = Except.error RemoveError.dropFailed)
      ∧ (name ∉ tableNames s.registry →
          (removeTable s name dropSucceeds).1 = s
            ∧ (removeTable s name dropSucceeds).2 = Except.error RemoveError.notFound) := by
  refine ⟨?_, ?_, ?_⟩
  · intro hmem hdrop
    subst hdrop
    have hany := registry_any_iff.mpr hmem
    have hstep : removeTable s name true
        = ({ engine := s.engine.filter (fun e => ¬ (e == name)),
             registry := s.registry.filter (fun t => ¬ (t.name == name)) },
           Except.ok ()) := by
      unfold removeTable
      rw [if_pos hany, if_pos rfl]
    rw [hstep]
    have hereg : name ∉ tableNames (s.registry.filter (fun t => ¬ (t.name == name))) := by
      intro hmem2
      rcases List.mem_map.mp hmem2 with ⟨t, ht, hts⟩
      have hpass := List.of_mem_filter ht
      rw [hts] at hpass
      simp at hpass
    have heeng : name ∉ s.engine.filter (fun e => ¬ (e == name)) := by
      intro hmem2
      have hpass := List.of_mem_filter hmem2
      simp at hpass
    refine ⟨rfl, hereg, heeng, ?_⟩
    unfold queryReferencing
    rw [if_neg heeng]
  · intro hmem hdrop
    subst hdrop
    have hany := registry_any_iff.mpr hmem
    unfold removeTable
    rw [if_pos hany]
    exact ⟨rfl, rfl⟩
  · intro hmem
    have hany : (s.registry.any fun t => t.name == name) ≠ true := by
      intro hc
      exact hmem (registry_any_iff.mp hc)
    unfold removeTable
    rw [if_neg hany]
    exact ⟨rfl, rfl⟩

/-- A one-table state used to instantiate C5's theorem. -/
def removalSampleState : AppState :=
  { engine := ["t"], registry := [⟨"t", "csv", "f.csv"⟩] }

/-- Witness for C5 at concrete inputs: removing `"t"` from a state that
holds it (successful drop) clears both sides and makes a follow-up query
fail; a failed drop keeps the record; removing `"u"` is `NotFoundError`. -/
theorem C5_removeTable_contract_witness :
    ((removeTable removalSampleState "t" true).2 = Except.ok ()
      ∧ "t" ∉ tableNames (removeTable removalSampleState "t" true).1.registry
      ∧ "t" ∉ (removeTable removalSampleState "t" true).1.engine
      ∧ queryReferencing (removeTable removalSampleState "t" true).1.engine "t"
          = Except.error QueryError.tableNotFound)
      ∧ (removeTable removalSampleState "t" false).1 = removalSampleState
      ∧ (removeTable removalSampleState "u" true).2
          = Except.error RemoveError.notFound := by
  have h := C5_removeTable_contract removalSampleState "t" true
  have h2 := C5_removeTable_contract removalSampleState "t" false
  have h3 := C5_removeTable_contract removalSampleState "u" true
  exact ⟨h.1 (by decide) rfl,
         (h2.2.1 (by decide) rfl).1,
         (h3.2.2 (by decide)).2⟩

/-! ## Query execution (C6)

`executeQuery` (src/context/DuckDBContext.tsx lines 109-127): when not
initialized it only records an error; otherwise it runs `runQuery` and,
on success, stores the fresh result and clears the error — but on
failure it stores the error message **and sets the stored result to
null** (line 123, `setQueryResult(null)`). -/


structure QueryResult where
  columns : List String
  rows : List JSValue

/-- The context state `executeQuery` reads and writes. -/
structure QueryCtxState where
  isInitialized : Bool
  error : Option String
  queryResult : Option QueryResult
  isQueryRunning : Bool

/-- `runQuery`'s outcome at the engine boundary: the normalized result
of `conn.query(sql)`, or the thrown error's message. -/
def executeQuery (s : QueryCtxState) (outcome : Except String QueryResult) :
    QueryCtxState :=
  if s.isInitialized then
    match outcome with
    | Except.ok r =>
        { s with error := none, queryResult := some r, isQueryRunning := false }
    | Except.error e =>
        { s with error := some e, queryResult := none, isQueryRunning := false }
  else
    { s with error := some "DuckDB not initialized" }

/-- C6, counterexample: a failed execution does *not* leave the
previously held successful result untouched — `executeQuery` clears the
stored result to null (line 123).  Starting from a state holding a
successful result, a failing query yields a state whose stored result is
`none`, not the prior one. -/
theorem C6_counterexample_failed_query_clears_result :
    (executeQuery
        { isInitialized := true, error := none,
          queryResult := some { columns := ["a"], rows := [JSValue.num 1] },
          isQueryRunning := false }
        (Except.error "Query failed")).queryResult = none
      ∧ (executeQuery
          { isInitialized := true, error := none,
            queryResult := some { columns := ["a"], rows := [JSValue.num 1] },
            isQueryRunning := false }
          (Except.error "Query failed")).queryResult
        ≠ some { columns := ["a"], rows := [JSValue.num 1] } := by
  constructor
  · rfl
  · intro hc
    rw [show (executeQuery
        { isInitialized := true, error := none,
          queryResult := some { columns := ["a"], rows := [JSValue.num 1] },
          isQueryRunning := false }
        (Except.error "Query failed")).queryResult = none from rfl] at hc
    exact Option.noConfusion hc

/-- C6 (amended): when query execution fails, `executeQuery` records the
error message and **clears** the stored result to null — the prior
successful result is discarded rather than retained — while a
successful execution stores the fresh result and clears the error; the
`runQuery` facade itself merely rejects and holds no result state. -/
theorem C6_executeQuery_failure_clears (s : QueryCtxState) (e : String)
    (r : QueryResult) :
    (s.isInitialized = true →
        executeQuery s (Except.error e)
          = { s with error := some e, queryResult := none, isQueryRunning := false })
      ∧ (s.isInitialized = true →
        executeQuery s (Except.ok r)
          = { s with error := none, queryResult := some r, isQueryRunning := false }) := by
  constructor
  · intro h
    unfold executeQuery
    rw [if_pos h]
  · intro h
    unfold executeQuery
    rw [if_pos h]

/-- Witness for C6's amended theorem at concrete inputs. -/
theorem C6_executeQuery_failure_clears_witness :
    executeQuery
        { isInitialized := true, error := none,
          queryResult := some { columns := ["a"], rows := [JSValue.num 1] },
          isQueryRunning := true }
        (Except.error "boom")
      = { isInitialized := true, error := some "boom",
          queryResult := none, isQueryRunning := false } :=
  (C6_executeQuery_failure_clears
    { isInitialized := true, error := none,
      queryResult := some { columns := ["a"], rows := [JSValue.num 1] },
      isQueryRunning := true }
    "boom" { columns := [], rows := [] }).1 rfl

/-! ## Spreadsheet ingestor (src/lib/duckdb.ts lines 136-177)

The first sheet row is the header list; a blank header is replaced by
`column_` followed by `headers.indexOf(header)` — the index of the
*first* blank header, since `indexOf` finds the first match; every
column is declared `VARCHAR`.  Each data row with at least one cell is
turned into an `INSERT`: null/undefined cells become the `NULL` literal,
other cells are single-quote-escaped and quoted, and the value list is
padded with `NULL` up to the header count (never truncated); rows with
zero cells are skipped. -/

/-- The column name one header produces (blank headers modelled as `""`,
the falsy value `header ||` tests for). -/
def excelColumnName (headers : List String) (header : String) : String :=
  if header == "" then "column_" ++ toString (List.indexOf header headers)
  else header

def excelColumnNames (headers : List String) : List String :=
  headers.map (excelColumnName headers)

/-- The mapped column definitions of the `CREATE TABLE` statement. -/
def excelColumns (headers : List String) : List String :=
  headers.map (fun header => "\"" ++ excelColumnName headers header ++ "\" VARCHAR")

def excelCreate (tableName : String) (headers : List String) : String :=
  "CREATE TABLE " ++ tableName ++ " ("
    ++ String.intercalate ", " (excelColumns headers) ++ ")"

/-- `String(value).replace(/'/g, "''")` (the global replace). -/
def escapeQuotes (s : String) : String := s.replace "'" "''"

/-- One cell rendered into the VALUES list: `null`/`undefined` becomes
the `NULL` literal, anything else is escaped and quoted. -/
def excelValue : Option String → String
  | none => "NULL"
  | some v => "'" ++ escapeQuotes v ++ "'"

/-- The `while (values.length < headers.length) values.push('NULL')`
padding. -/
def padNulls (values : List String) (n : Nat) : List String :=
  values ++ List.replicate (n - values.length) "NULL"

def excelInsertValues (headers : List String) (row : List (Option String)) :
    List String :=
  padNulls (row.map excelValue) headers.length

def excelInsert (tableName : String) (headers : List String)
    (row : List (Option String)) : String :=
  "INSERT INTO " ++ tableName ++ " VALUES ("
    ++ String.intercalate ", " (excelInsertValues headers row) ++ ")"

/-- The insert statements issued for the data rows, in order: one per
row with `row.length > 0`, none for a zero-cell row. -/
def excelInserts (tableName : String) (headers : List String)
    (rows : List (List (Option String))) : List String :=
  (rows.filter (fun row => decide (0 < row.length))).map (excelInsert tableName headers)

theorem getD_eq_of_lt {α : Type} {l : List α} {i : Nat} (h : i < l.length) (d : α) :
    l.getD i d = l[i] := by
  rw [List.getD_eq_getElem?_getD, List.getElem?_eq_getElem h]
  rfl

/-- With at most one blank header, `indexOf` really returns the blank's
own position. -/
theorem indexOf_blank_of_count_le_one :
    ∀ (l : List String) (i : Nat), i < l.length →
      l.count "" ≤ 1 → l.getD i "x" = "" → List.indexOf "" l = i := by
  intro l
  induction l with
  | nil => intro i hi; simp at hi
  | cons x xs ih =>
      intro i hi hcount hblank
      rw [List.indexOf_cons]
      match i with
      | 0 =>
          have hx : x = "" := hblank
          rw [hx]
          rfl
      | j + 1 =>
          have hj : j < xs.length := by
            rw [List.length_cons] at hi
            omega
          have hxs : xs.getD j "x" = "" := hblank
          have hmem : "" ∈ xs := by
            rw [← hxs, getD_eq_of_lt hj]
            exact List.getElem_mem hj
          have hxne : x ≠ "" := by
            intro hx
            have h1 : 1 ≤ xs.count "" := List.one_le_count_iff.mpr hmem
            rw [hx, List.count_cons] at hcount
            simp at hcount
            omega
          have hbeq : (x == "") = false := beq_eq_false_iff_ne.mpr hxne
          rw [hbeq]
          show xs.indexOf "" + 1 = j + 1
          have hcount2 : xs.count "" ≤ 1 := by
            rw [List.count_cons] at hcount
            omega
          rw [ih j hj hcount2 hxs]

theorem excelColumnName_of_nonblank {headers : List String} {header : String}
    (h : header ≠ "") : excelColumnName headers header = header := by
  unfold excelColumnName
  rw [if_neg (by rw [beq_eq_false_iff_ne.mpr h]; exact Bool.false_ne_true)]

theorem excelColumnName_blank {headers : List String} {i : Nat}
    (hi : i < headers.length) (hcount : headers.count "" ≤ 1)
    (hblank : headers.getD i "x" = "") :
    excelColumnName headers "" = "column_" ++ toString i := by
  unfold excelColumnName
  rw [if_pos (show ("" == "") = true from rfl),
    indexOf_blank_of_count_le_one headers i hi hcount hblank]

/-- C8, counterexample: the placeholder is *not* positional for every
blank header.  With blanks in columns 2 and 4, `indexOf` returns the
first blank's index for both, so the fourth column is named `column_1`
(not `column_3`) and the placeholder collides with the second column's
name instead of being distinct from every other column name. -/
theorem C8_counterexample_two_blanks :
    excelColumnNames ["a", "", "c", ""] = ["a", "column_1", "c", "column_1"]
      ∧ (excelColumnNames ["a", "", "c", ""]).getD 3 "x" ≠ "column_" ++ toString 3
      ∧ ¬ (excelColumnNames ["a", "", "c", ""]).Nodup := by
  refine ⟨by decide, by decide, by decide⟩

/-- C8 (amended): the placeholder index is the position of the *first*
blank header, so when the sheet has at most one blank header — as in the
spec's scenario of a single blank in column 2 — the blank at position
`i` is named `column_i`, and that name differs from every other column's
name provided no nonblank header itself equals `column_i`; every column
is declared `VARCHAR`; and one `INSERT` is issued per data row with at
least one cell (rows no longer than the header row supplying exactly one
value per declared column). -/
theorem C8_spreadsheet_blank_header (headers : List String) (tableName : String)
    (rows : List (List (Option String))) (i : Nat) (hi : i < headers.length)
    (hcount : headers.count "" ≤ 1) (hblank : headers.getD i "x" = "") :
    (excelColumnNames headers).getD i "x" = "column_" ++ toString i
      ∧ (∀ j, j < headers.length → j ≠ i →
          headers.getD j "x" ≠ "column_" ++ toString i →
          (excelColumnNames headers).getD j "x"
            ≠ (excelColumnNames headers).getD i "x")
      ∧ excelColumns headers
          = (excelColumnNames headers).map (fun n => "\"" ++ n ++ "\" VARCHAR")
      ∧ (excelInserts tableName headers rows).length
          = (rows.filter (fun row => decide (0 < row.length))).length
      ∧ (∀ row ∈ rows, 0 < row.length → row.length ≤ headers.length →
          (excelInsertValues headers row).length = headers.length) := by
  have hmaplen : i < (excelColumnNames headers).length := by
    unfold excelColumnNames
    rw [List.length_map]
    exact hi
  have hati : (excelColumnNames headers).getD i "x" = "column_" ++ toString i := by
    rw [getD_eq_of_lt hmaplen]
    unfold excelColumnNames
    rw [List.getElem_map]
    rw [show headers[i] = "" from by rw [← getD_eq_of_lt hi]; exact hblank]
    exact excelColumnName_blank hi hcount hblank
  refine ⟨hati, ?_, ?_, ?_, ?_⟩
  · intro j hj hne hnotcol
    have hjmaplen : j < (excelColumnNames headers).length := by
      unfold excelColumnNames
      rw [List.length_map]
      exact hj
    rw [hati, getD_eq_of_lt hjmaplen]
    unfold excelColumnNames
    rw [List.getElem_map]
    by_cases hbj : headers[j] = ""
    · exfalso
      have hidx := indexOf_blank_of_count_le_one headers j hj hcount
        (by rw [getD_eq_of_lt hj]; exact hbj)
      have hidx2 := indexOf_blank_of_count_le_one headers i hi hcount hblank
      exact hne (by omega)
    · rw [excelColumnName_of_nonblank hbj]
      intro hc
      apply hnotcol
      rw [getD_eq_of_lt hj]
      exact hc
  · unfold excelColumns excelColumnNames
    rw [List.map_map]
    rfl
  · unfold excelInserts
    rw [List.length_map]
  · intro row _ _ hle
    unfold excelInsertValues padNulls
    rw [List.length_append, List.length_map, List.length_replicate]
    omega

/-- Witness for C8 at concrete inputs: headers `["a", "", "c"]` (one
blank, in column 2) give the second column the placeholder name
`column_1`, and the single non-empty row yields one `INSERT` with three
values. -/
theorem C8_spreadsheet_blank_header_witness :
    (excelColumnNames ["a", "", "c"]).getD 1 "x" = "column_" ++ toString 1
      ∧ (excelInserts "t" ["a", "", "c"] [[some "v"], []]).length
          = ([[some "v"], []].filter
              (fun row => decide (0 < (row : List (Option String)).length))).length
      ∧ (excelInsertValues ["a", "", "c"] [some "v"]).length = 3 := by
  have h := C8_spreadsheet_blank_header ["a", "", "c"] "t" [[some "v"], []] 1
    (by decide) (by decide) (by decide)
  exact ⟨h.1, h.2.2.2.1,
    h.2.2.2.2 [some "v"] (by decide) (by decide) (by decide)⟩

/-- C10, counterexample: a data row *longer* than the header row is not
truncated, so its `INSERT` supplies more values than there are declared
columns — the claim's "exactly one value per declared column" fails.
With one declared column and a two-cell row, the insert carries two
values. -/
theorem C10_counterexample_long_row :
    0 < ([some "x", some "y"] : List (Option String)).length
      ∧ (excelInsertValues ["a"] [some "x", some "y"]).length = 2
      ∧ (["a"] : List String).length = 1
      ∧ (excelInsertValues ["a"] [some "x", some "y"]).length
          ≠ (["a"] : List String).length := by
  have hlen : (excelInsertValues ["a"] [some "x", some "y"]).length = 2 := by
    unfold excelInsertValues padNulls
    rw [List.length_append, List.length_map, List.length_replicate]
    decide
  refine ⟨by decide, hlen, rfl, ?_⟩
  rw [hlen]
  decide

/-- C10 (amended): every data row with at least one cell yields exactly
one `INSERT`, whose value list is the rendered cells padded with `NULL`
up to the header count — so it has `max row.length headers.length`
values, which is exactly one value per declared column whenever the row
is not longer than the header row; zero-cell rows are skipped, so the
number of issued inserts equals the number of non-empty data rows. -/
theorem C10_spreadsheet_row_padding (tableName : String) (headers : List String)
    (rows : List (List (Option String))) (row : List (Option String)) :
    (excelInserts tableName headers rows).length
        = (rows.filter (fun r => decide (0 < r.length))).length
      ∧ excelInsertValues headers row
          = row.map excelValue ++ List.replicate (headers.length - row.length) "NULL"
      ∧ (excelInsertValues headers row).length = max row.length headers.length
      ∧ (row.length ≤ headers.length →
          (excelInsertValues headers row).length = headers.length) := by
  refine ⟨?_, ?_, ?_, ?_⟩
  · unfold excelInserts
    rw [List.length_map]
  · unfold excelInsertValues padNulls
    rw [List.length_map]
  · unfold excelInsertValues padNulls
    rw [List.length_append, List.length_map, List.length_replicate]
    omega
  · intro hle
    unfold excelInsertValues padNulls
    rw [List.length_append, List.length_map, List.length_replicate]
    omega

/-- Witness for C10 at concrete inputs: with two headers, a one-cell row
is padded to two values; the hypothesis of the padded-to-header-count
clause is discharged at `row.length = 1 ≤ 2`. -/
theorem C10_spreadsheet_row_padding_witness :
    (excelInserts "t" ["a", "b"] [[some "x"], [], [none]]).length
        = ([[some "x"], [], [none]].filter
            (fun r => decide (0 < (r : List (Option String)).length))).length
      ∧ (excelInsertValues ["a", "b"] [some "x"]).length = 2 := by
  have h := C10_spreadsheet_row_padding "t" ["a", "b"] [[some "x"], [], [none]]
    [some "x"]
  exact ⟨h.1, h.2.2.2 (by decide)⟩

/-! ## Engine Session initialization (`initDuckDB`, src/lib/duckdb.ts lines 35-81)

The module-level singleton is `db`/`conn`; `initDuckDB` returns early
only when *both* are set, and otherwise runs: `await selectBundle` —
then, synchronously, `new Worker` and `db = new AsyncDuckDB` — `await
db.instantiate` — `conn = await db.connect()`.  The host's cooperative
scheduler can interleave two callers at any `await`; each atomic block
between suspension points is one step of the machine below. -/

/-- A caller's position between the suspension points of `initDuckDB`. -/
inductive InitPC where
  | start
  | afterSelect
  | afterInstantiate
  | afterConnect
  | done
deriving DecidableEq

/-- The shared module state plus the two callers' positions.  Worker /
`AsyncDuckDB` instances are numbered by creation order; `workers` counts
how many have been created. -/
structure InitSys where
  db : Option Nat
  conn : Option Nat
  workers : Nat
  pcA : InitPC
  pcB : InitPC
deriving DecidableEq

/-- One caller's step.  `start`: the `if (db && conn) return` check —
done when both are set, else suspend at `selectBundle`.  `afterSelect`:
resume, create the worker and the `AsyncDuckDB` instance (overwriting
the module-level `db`), suspend at `instantiate`.  `afterInstantiate`:
resume, suspend at `connect`.  `afterConnect`: store `conn` (a handle of
the instance currently in the module-level `db`) and return. -/
def initStep (db conn : Option Nat) (workers : Nat) (pc : InitPC) :
    Option Nat × Option Nat × Nat × InitPC :=
  match pc with
  | .start =>
      if db.isSome && conn.isSome then (db, conn, workers, .done)
      else (db, conn, workers, .afterSelect)
  | .afterSelect => (some (workers + 1), conn, workers + 1, .afterInstantiate)
  | .afterInstantiate => (db, conn, workers, .afterConnect)
  | .afterConnect => (db, some (db.getD 0), workers, .done)
  | .done => (db, conn, workers, .done)

/-- Run one step of caller A (`false`) or caller B (`true`). -/
def sysStep (s : InitSys) (caller : Bool) : InitSys :=
  if caller then
    match initStep s.db s.conn s.workers s.pcB with
    | (db2, conn2, workers2, pc2) =>
        { db := db2, conn := conn2, workers := workers2, pcA := s.pcA, pcB := pc2 }
  else
    match initStep s.db s.conn s.workers s.pcA with
    | (db2, conn2, workers2, pc2) =>
        { db := db2, conn := conn2, workers := workers2, pcA := pc2, pcB := s.pcB }

def sysRun (s : InitSys) (schedule : List Bool) : InitSys :=
  schedule.foldl sysStep s

/-- The uninitialized module state, with both callers about to invoke
`initDuckDB`. -/
def initSys0 : InitSys :=
  { db := none, conn := none, workers := 0, pcA := .start, pcB := .start }

/-- The interleaving in which caller B's `selectBundle` resolves after
caller A has fully initialized: B passed the `if (db && conn)` check
while both were still null, so it proceeds anyway. -/
def raceSchedule : List Bool :=
  [false, true, false, false, false, true, true, true]

/-- C9: `initDuckDB` does **not** have single-flight semantics.  Under
`raceSchedule` — a legal cooperative interleaving of two concurrent
calls — both callers run to completion ("observe ready"), but two
workers and two `AsyncDuckDB` instances are created, and the module
handles end up referring to the second instance while the first leaks.
The claim's "exactly one underlying engine instance" is violated by the
code; the in-flight initialization is not shared. -/
theorem C9_initialization_race :
    (sysRun initSys0 raceSchedule).workers = 2
      ∧ (sysRun initSys0 raceSchedule).pcA = InitPC.done
      ∧ (sysRun initSys0 raceSchedule).pcB = InitPC.done
      ∧ (sysRun initSys0 raceSchedule).db = some 2
      ∧ ¬ ∀ schedule : List Bool, (sysRun initSys0 schedule).workers ≤ 1 := by
  refine ⟨by decide, by decide, by decide, by decide, ?_⟩
  intro hall
  have h := hall raceSchedule
  rw [show (sysRun initSys0 raceSchedule).workers = 2 from by decide] at h
  omega
